import Mathlib

/-
Verification of the constraint-model construction in src/src/run_solver.py
(function main). The definitions below are a shallow embedding of the
model-building steps: each solver call that creates an interval variable or
posts a constraint is recorded as explicit data, and the meaning of the
break-interval constraints is spelled out as propositions over an explicit
valuation of the solver variables they mention.
-/

namespace RunSolver

/-- A transport request. Fields follow the demand records iterated in
run_solver.py (record.origin, record.destination, record.early, record.late,
plus the signed quantity). The feasible flag is modelled from the spec: the
Demand class (demand.py) is not part of src, and the spec gives every record
a feasibility flag set at preprocessing time. -/
structure DemandRecord where
  origin : Nat
  destination : Nat
  early : Int
  late : Int
  quantity : Int
  feasible : Bool
deriving DecidableEq, Repr

/-- Start-time specification of a FixedDurationIntervalVar: either synced to
the expression routeStart + c (the overload taking a start expression), or a
plain [lo, hi] range for the start variable. -/
inductive StartSpec where
  | atOffset (c : Int) : StartSpec
  | inRange (lo hi : Int) : StartSpec
deriving DecidableEq, Repr

/-- Performed-flag specification of an interval variable: always performed,
a free 0-1 performed variable, or a performed variable tied to the
vehicle_check product expression. -/
inductive PerformedSpec where
  | mandatory : PerformedSpec
  | optionalFree : PerformedSpec
  | vehicleCheckExpr : PerformedSpec
deriving DecidableEq, Repr

/-- A fixed-duration interval variable as created by
solver.FixedDurationIntervalVar in run_solver.py. -/
structure IntervalSpec where
  startSpec : StartSpec
  duration : Int
  performedSpec : PerformedSpec
deriving DecidableEq, Repr

/-- vehicle_check (run_solver.py lines 215-221): starts at 1 and is
multiplied, for every demand pickup node, by the 0-1 value of the expression
(VehicleVar(node) == i). Here assign gives the value of VehicleVar at each
pickup node. -/
def vehicle_check (assign : Nat → Int) (pickups : List Nat) (i : Int) : Int :=
  pickups.foldl (fun acc node => acc * (if assign node = i then 1 else 0)) 1

/-- need_breaks is hardcoded to 9 (run_solver.py line 287); the
horizon-derived formula on line 286 is commented out in the source. -/
def need_breaks : Nat := 9

/-- optional_break (lines 297-299): False, then set to True when intvl > 0. -/
def optional_break (intvl : Nat) : Bool :=
  if intvl > 0 then true else false

/-- First break interval (lines 204-230): for vehicle 0 it is mandatory and
its start is synced to route_start + 11 * 60; for every other vehicle its
start is synced to route_start and its performed flag is tied to the
vehicle_check expression. -/
def first_break (i : Nat) : IntervalSpec :=
  if i = 0 then
    { startSpec := StartSpec.atOffset (11 * 60), duration := 10 * 60,
      performedSpec := PerformedSpec.mandatory }
  else
    { startSpec := StartSpec.atOffset 0, duration := 10 * 60,
      performedSpec := PerformedSpec.vehicleCheckExpr }

/-- trip_start (lines 231-234): an always-performed interval of duration 11
whose start is synced to route_start, created for every vehicle other than
vehicle 0. -/
def trip_start : IntervalSpec :=
  { startSpec := StartSpec.atOffset 0, duration := 11,
    performedSpec := PerformedSpec.mandatory }

/-- Subsequent break interval for loop index intvl (lines 290-306): start
range [(intvl - 1) * (10 + 11) * 60, horizon - 10 * 60], duration 10 * 60,
optional exactly when intvl > 0. -/
def subsequentBreak (horizon : Int) (intvl : Nat) : IntervalSpec :=
  { startSpec := StartSpec.inRange (((intvl : Int) - 1) * ((10 + 11) * 60)) (horizon - 10 * 60),
    duration := 10 * 60,
    performedSpec :=
      if optional_break intvl then PerformedSpec.optionalFree else PerformedSpec.mandatory }

/-- The ordered break chain for vehicle i (breaks[i] in the source): the
first break followed by the subsequent breaks for intvl = 1 .. need_breaks - 1
(the loop is range(1, need_breaks)). -/
def vehicleBreaks (horizon : Int) (i : Nat) : List IntervalSpec :=
  first_break i :: (List.range' 1 (need_breaks - 1)).map (subsequentBreak horizon)

/-- Auxiliary intervals: the trip_start interval exists for every vehicle
other than vehicle 0. -/
def vehicleAuxIntervals (i : Nat) : List IntervalSpec :=
  if i = 0 then [] else [trip_start]

/-- The constraints posted around the break chain of one vehicle. -/
inductive BreakConstraint where
  | firstAfterTripStart : BreakConstraint
  | chainDelay (intvl : Nat) : BreakConstraint
  | conditionalPerformed (intvl : Nat) : BreakConstraint
deriving DecidableEq, Repr

/-- Constraints posted inside the subsequent-break loop (lines 290-335): for
every intvl, breaks[intvl].StartsAfterEndWithDelay(breaks[intvl - 1], 660),
and, when the break is optional, the conditional performed constraint built
from ConditionalExpression. -/
def subsequentBreakConstraints : List BreakConstraint :=
  (List.range' 1 (need_breaks - 1)).flatMap (fun intvl =>
    BreakConstraint.chainDelay intvl ::
      (if optional_break intvl then [BreakConstraint.conditionalPerformed intvl] else []))

/-- All break-related constraints for vehicle i: vehicles other than 0 also
get first_10hr_break.StartsAfterEnd(trip_start) (lines 245-247), and every
vehicle gets the loop constraints. -/
def vehicleBreakConstraints (i : Nat) : List BreakConstraint :=
  (if i = 0 then [] else [BreakConstraint.firstAfterTripStart]) ++ subsequentBreakConstraints

/-- Valuation of the solver variables the break constraints mention for one
vehicle: the Time cumul at the route start and end nodes, the start time and
performed flag of every break in the chain (indexed as in breaks[i]), and
the start time of the trip_start interval. -/
structure BreakState where
  routeStart : Int
  routeEnd : Int
  start : Nat → Int
  performed : Nat → Bool
  tripStartTime : Int

/-- Duration of every 10 hour break. -/
def breakDuration : Int := 10 * 60

/-- Meaning of each break constraint, following the or-tools semantics:
precedence constraints between intervals are active only when the intervals
involved are performed (trip_start is always performed), the end of an
interval is its start plus its duration, and
ConditionalExpression(c, e, v) evaluates to e when c holds and to v
otherwise; the source posts that expression >= 1. -/
def BreakConstraint.sat (s : BreakState) : BreakConstraint → Prop
  | BreakConstraint.firstAfterTripStart =>
      s.performed 0 = true → s.start 0 ≥ s.tripStartTime + trip_start.duration
  | BreakConstraint.chainDelay intvl =>
      s.performed intvl = true → s.performed (intvl - 1) = true →
        s.start intvl ≥ (s.start (intvl - 1) + breakDuration) + 660
  | BreakConstraint.conditionalPerformed intvl =>
      (if s.routeStart + (intvl : Int) * ((11 + 10) * 60) < s.routeEnd then
        (if s.performed intvl = true then (1 : Int) else 0)
      else 1) ≥ 1

/-- Pairing, same-vehicle and precedence constraints (lines 142-152). -/
inductive PairOp where
  | pickupDelivery (p dl : Nat) : PairOp
  | sameVehicle (p dl : Nat) : PairOp
  | precedence (p dl : Nat) : PairOp
deriving DecidableEq, Repr

/-- The pickup and delivery loop (lines 142-152) posts, for EVERY record of
the demand table, an AddPickupAndDelivery, a same-vehicle equality of the
VehicleVar of the two nodes, and a cumulative-time precedence; no
feasibility flag is consulted by the loop. -/
def pairingOps (demand : List DemandRecord) : List PairOp :=
  demand.flatMap (fun r =>
    [PairOp.pickupDelivery r.origin r.destination,
     PairOp.sameVehicle r.origin r.destination,
     PairOp.precedence r.origin r.destination])

/-- A SetRange call on the Time cumul variable of a node. -/
structure RangeConstraint where
  node : Nat
  lo : Int
  hi : Int
deriving DecidableEq, Repr

/-- The time-window loop (lines 157-163): for every record, exactly one
SetRange(early, late), applied to the pickup node (record.origin). -/
def timeWindowOps (demand : List DemandRecord) : List RangeConstraint :=
  demand.map (fun r => { node := r.origin, lo := r.early, hi := r.late })

/-- penalty (line 372): the cost for dropping a demand node from the plan. -/
def penalty : Int := 10000000

/-- break_penalty (line 373): the cost for dropping a break node. -/
def break_penalty : Int := 0

/-- A single AddDisjunction call: the node set and the drop penalty p. -/
structure DisjunctionOp where
  nodes : List Nat
  p : Int
deriving DecidableEq, Repr

/-- The disjunction loop (lines 376-386): skip node 0 (no disjunction on the
depot node), otherwise add a single-node disjunction with penalty
break_penalty when the demand at the node is zero and penalty otherwise. -/
def disjunctionOps (nodeIndex : List Nat) (getDemand : Nat → Int) : List DisjunctionOp :=
  nodeIndex.filterMap (fun c =>
    if c = 0 then none
    else some { nodes := [c], p := if getDemand c = 0 then break_penalty else penalty })

/-- node_visit_transit (lines 178-180): the per-node visit duration map
handed to SetBreakIntervalsOfVehicle. -/
def node_visit_transit (nodes : List Nat) (serviceTime : Nat → Int) : List (Nat × Int) :=
  nodes.map (fun n => (n, serviceTime n))

/-- Every model-mutating call main() makes on the routing model or its
underlying solver. The removeTransition constructor is the remove_transition
operation the external engine interface offers for pruning a next-node
domain; main() never emits it (see the theorem for claim C9). -/
inductive ModelOp where
  | registerArcCost : ModelOp
  | addCountDimension (increment : Int) (maxCount : Nat) (startToZero : Bool) : ModelOp
  | addTimeDimension (slackMax maxTime : Int) (startToZero : Bool) : ModelOp
  | addCapacityDimension (slackMax : Int) (caps : List Int) (startToZero : Bool) : ModelOp
  | pairing (op : PairOp) : ModelOp
  | setRange (rc : RangeConstraint) : ModelOp
  | slackToAssignment (node : Nat) : ModelOp
  | vehicleStartRange (i : Nat) (lo hi : Int) : ModelOp
  | startSlackToAssignment (i : Nat) : ModelOp
  | auxInterval (i : Nat) (spec : IntervalSpec) : ModelOp
  | breakConstraint (i : Nat) (c : BreakConstraint) : ModelOp
  | setBreakIntervals (i : Nat) (intervals : List IntervalSpec)
      (visitTransit : List (Nat × Int)) : ModelOp
  | disjunction (dj : DisjunctionOp) : ModelOp
  | removeTransition (a b vehicle : Nat) : ModelOp
deriving DecidableEq, Repr

/-- True exactly on the removeTransition operation. -/
def ModelOp.isRemoveTransition : ModelOp → Bool
  | ModelOp.removeTransition _ _ _ => true
  | _ => false

/-- The full sequence of model-mutating calls performed by main(), in source
order: cost callback and the three dimensions (lines 96-137), the pickup and
delivery loop (142-152), the time-window loop over records and over vehicle
starts (157-171), the per-vehicle break construction (189-341), and the
disjunction loop (376-386). The vehicle time windows come from vehicles.py,
which is not part of src, so they are kept as a parameter (the spec default
is [0, horizon]). The travel matrix parameter is listed because main() reads
it only inside the registered arc-cost callbacks: no model-construction step
inspects whether an entry is defined, and no transition is ever removed. -/
def buildModel (horizon : Int) (numVehicles : Nat) (nodes : List Nat)
    (demand : List DemandRecord) (getDemand : Nat → Int) (serviceTime : Nat → Int)
    (vehTW : Nat → Int × Int) (caps : List Int)
    (matrix : Nat → Nat → Option Int) : List ModelOp :=
  [ModelOp.registerArcCost,
   ModelOp.addCountDimension 1 nodes.length true,
   ModelOp.addTimeDimension horizon horizon true,
   ModelOp.addCapacityDimension 0 caps true]
  ++ (pairingOps demand).map ModelOp.pairing
  ++ (timeWindowOps demand).flatMap
      (fun rc => [ModelOp.setRange rc, ModelOp.slackToAssignment rc.node])
  ++ (List.range numVehicles).flatMap
      (fun i => [ModelOp.vehicleStartRange i (vehTW i).1 (vehTW i).2,
                 ModelOp.startSlackToAssignment i])
  ++ (List.range numVehicles).flatMap (fun i =>
      (vehicleAuxIntervals i).map (ModelOp.auxInterval i)
      ++ (vehicleBreakConstraints i).map (ModelOp.breakConstraint i)
      ++ [ModelOp.setBreakIntervals i (vehicleBreaks horizon i)
            (node_visit_transit nodes serviceTime)])
  ++ (disjunctionOps nodes getDemand).map ModelOp.disjunction

/-- A vehicle assignment that splits the two pickup nodes across two
vehicles: VehicleVar(node) = node, so node 1 rides on vehicle 1 and node 2
rides on vehicle 2. -/
def assignSplit : Nat → Int := fun n => (n : Int)

/-- A travel matrix whose entry from node 1 to node 2 is undefined. -/
def matrixEx : Nat → Nat → Option Int := fun a b =>
  if a = 1 ∧ b = 2 then none else some 10

/-- A feasible demand record: pickup at node 1, delivery at node 2,
pickup window [0, 100]. -/
def demandEx : DemandRecord :=
  { origin := 1, destination := 2, early := 0, late := 100,
    quantity := 5, feasible := true }

/-- A demand record whose feasibility flag is false. -/
def infeasibleEx : DemandRecord :=
  { origin := 3, destination := 4, early := 0, late := 10,
    quantity := 1, feasible := false }

/-- A demand-quantity function: node 1 is a demand node with quantity 5,
every other node has zero demand. -/
def demandOfEx : Nat → Int := fun c => if c = 1 then 5 else 0

/-- Helper: the vehicle_check fold from any accumulator is the accumulator
times the indicator that every listed pickup is assigned to vehicle i. -/
theorem vehicle_check_foldl (assign : Nat → Int) (i : Int) (l : List Nat) (acc : Int) :
    l.foldl (fun a node => a * (if assign node = i then 1 else 0)) acc
      = acc * (if l.all (fun n => assign n = i) then 1 else 0) := by
  induction l generalizing acc with
  | nil => simp
  | cons x xs ih =>
    simp only [List.foldl_cons, List.all_cons, ih]
    by_cases hx : assign x = i <;> simp [hx]

/-- Helper: vehicle_check equals 1 exactly when EVERY pickup node is
assigned to vehicle i (the product-of-equalities semantics). -/
theorem vehicle_check_eq_one_iff (assign : Nat → Int) (pickups : List Nat) (i : Int) :
    vehicle_check assign pickups i = 1 ↔ ∀ n ∈ pickups, assign n = i := by
  unfold vehicle_check
  rw [vehicle_check_foldl]
  simp only [List.all_eq_true, decide_eq_true_eq]
  by_cases h : ∀ n ∈ pickups, assign n = i
  · simp [h]
  · simp [h]

/-- C1: the performed flag of a non-anchor first break is the vehicle_check
product over all pickups. At the failing input pickups = [1, 2] with
VehicleVar(1) = 1 and VehicleVar(2) = 2 the product evaluates to 0 for
vehicle 1 even though node 1 is assigned to vehicle 1: the flag is the
all-pickups-assigned indicator, not the at-least-one indicator the claim
(and the code comment about detecting a used vehicle) states. -/
theorem C1_first_break_flag_failing :
    (first_break 1).performedSpec = PerformedSpec.vehicleCheckExpr ∧
    assignSplit 1 = 1 ∧
    vehicle_check assignSplit [1, 2] 1 = 0 := by decide

/-- C2: for every vehicle i and every subsequent break index intvl in
range(1, need_breaks), the model contains the conditional constraint, and
its meaning is exactly: if route_start + intvl * (660 + 600) < route_end
then the performed flag of break intvl is true. -/
theorem C2_conditional_break_constraint (i intvl : Nat)
    (h1 : 1 ≤ intvl) (h2 : intvl < need_breaks) :
    BreakConstraint.conditionalPerformed intvl ∈ vehicleBreakConstraints i ∧
    ∀ s : BreakState,
      BreakConstraint.sat s (BreakConstraint.conditionalPerformed intvl) ↔
        (s.routeStart + (intvl : Int) * (660 + 600) < s.routeEnd →
          s.performed intvl = true) := by
  constructor
  · have hmem : BreakConstraint.conditionalPerformed intvl ∈ subsequentBreakConstraints := by
      unfold need_breaks at h2
      interval_cases intvl <;> decide
    unfold vehicleBreakConstraints
    exact List.mem_append.mpr (Or.inr hmem)
  · intro s
    have hEq : s.routeStart + (intvl : Int) * ((11 + 10) * 60)
        = s.routeStart + (intvl : Int) * (660 + 600) := by ring
    simp only [BreakConstraint.sat, hEq]
    constructor
    · intro hsat hA
      rw [if_pos hA] at hsat
      by_contra hp
      rw [Bool.not_eq_true] at hp
      rw [if_neg (by simp [hp])] at hsat
      omega
    · intro himp
      by_cases hA : s.routeStart + (intvl : Int) * (660 + 600) < s.routeEnd
      · rw [if_pos hA, if_pos (himp hA)]
      · rw [if_neg hA]

/-- C2 witness: instantiation at vehicle 0 and intvl = 1. -/
theorem C2_conditional_break_constraint_witness :
    (1 ≤ 1 ∧ 1 < need_breaks) ∧
    (BreakConstraint.conditionalPerformed 1 ∈ vehicleBreakConstraints 0 ∧
      ∀ s : BreakState,
        BreakConstraint.sat s (BreakConstraint.conditionalPerformed 1) ↔
          (s.routeStart + ((1 : Nat) : Int) * (660 + 600) < s.routeEnd →
            s.performed 1 = true)) :=
  ⟨⟨Nat.le_refl 1, by decide⟩,
    C2_conditional_break_constraint 0 1 (Nat.le_refl 1) (by decide)⟩

/-- C3: for every vehicle and every pair of consecutive breaks of the chain
(indices intvl - 1 and intvl, for intvl in range(1, need_breaks)) the model
contains the StartsAfterEndWithDelay constraint with delay 660; every break
in the chain has duration 600, so whenever both breaks are performed the
later one starts no earlier than 660 minutes after the earlier one ends. -/
theorem C3_chain_delay (horizon : Int) (i intvl : Nat)
    (h1 : 1 ≤ intvl) (h2 : intvl < need_breaks) :
    BreakConstraint.chainDelay intvl ∈ vehicleBreakConstraints i ∧
    (∀ b ∈ vehicleBreaks horizon i, b.duration = 600) ∧
    ∀ s : BreakState,
      BreakConstraint.sat s (BreakConstraint.chainDelay intvl) →
        s.performed intvl = true → s.performed (intvl - 1) = true →
        s.start intvl ≥ (s.start (intvl - 1) + 600) + 660 := by
  refine ⟨?_, ?_, ?_⟩
  · have hmem : BreakConstraint.chainDelay intvl ∈ subsequentBreakConstraints := by
      unfold need_breaks at h2
      interval_cases intvl <;> decide
    unfold vehicleBreakConstraints
    exact List.mem_append.mpr (Or.inr hmem)
  · intro b hb
    simp only [vehicleBreaks, List.mem_cons, List.mem_map] at hb
    rcases hb with rfl | ⟨x, _, rfl⟩
    · unfold first_break
      split <;> rfl
    · rfl
  · intro s hsat hp hq
    have he := hsat hp hq
    simp only [breakDuration] at he
    linarith

/-- C3 witness: instantiation at horizon 10080, vehicle 0 and intvl = 1. -/
theorem C3_chain_delay_witness :
    (1 ≤ 1 ∧ 1 < need_breaks) ∧
    (BreakConstraint.chainDelay 1 ∈ vehicleBreakConstraints 0 ∧
      (∀ b ∈ vehicleBreaks 10080 0, b.duration = 600) ∧
      ∀ s : BreakState,
        BreakConstraint.sat s (BreakConstraint.chainDelay 1) →
          s.performed 1 = true → s.performed (1 - 1) = true →
          s.start 1 ≥ (s.start (1 - 1) + 600) + 660) :=
  ⟨⟨Nat.le_refl 1, by decide⟩,
    C3_chain_delay 10080 0 1 (Nat.le_refl 1) (by decide)⟩

/-- C4 counterexample: at the default horizon 10080 the code creates
8 subsequent breaks (need_breaks = 9 minus the first), while
floor(10080 / (660 + 600)) - 1 = 7. -/
theorem C4_count_counterexample :
    (vehicleBreaks 10080 0).length - 1 = 8 ∧
    (10080 : Int) / (660 + 600) - 1 = 7 ∧ (8 : Nat) ≠ 7 := by decide

/-- C4 amended: the break count is hardcoded: for every horizon and every
vehicle the chain has need_breaks = 9 intervals, hence 8 subsequent breaks,
independent of the configured time horizon. -/
theorem C4_count_hardcoded (horizon : Int) (i : Nat) :
    (vehicleBreaks horizon i).length - 1 = need_breaks - 1 ∧ need_breaks = 9 := by
  constructor
  · simp [vehicleBreaks, need_breaks]
  · rfl

/-- C5 counterexample: the break with chain index k = 3 (loop index 2) of
the chain is created with minimum start (3 - 2) * 1260 = 1260, not
(3 - 2) * 1110 = 1110 as the claim states. -/
theorem C5_bounds_counterexample :
    (vehicleBreaks 10080 0)[2]? = some (subsequentBreak 10080 2) ∧
    subsequentBreak 10080 2 =
      { startSpec := StartSpec.inRange 1260 9480, duration := 600,
        performedSpec := PerformedSpec.optionalFree } ∧
    ((3 : Int) - 2) * 1110 ≠ 1260 := by decide

/-- C5 amended: for 2 ≤ k ≤ need_breaks, the k-th break of the chain (loop
index k - 1) is optional with duration 600 and start bounds
[(k - 2) * 1260, horizon - 600]; the spacing constant is
1260 = (10 + 11) * 60, not 1110. -/
theorem C5_subsequent_break_bounds (horizon : Int) (i k : Nat)
    (h1 : 2 ≤ k) (h2 : k ≤ need_breaks) :
    (vehicleBreaks horizon i)[k - 1]? = some (subsequentBreak horizon (k - 1)) ∧
    subsequentBreak horizon (k - 1) =
      { startSpec := StartSpec.inRange (((k : Int) - 2) * 1260) (horizon - 600),
        duration := 600, performedSpec := PerformedSpec.optionalFree } := by
  unfold need_breaks at h2
  interval_cases k <;>
    exact ⟨rfl, by norm_num [subsequentBreak, optional_break]⟩

/-- C5 witness: instantiation at horizon 10080, vehicle 0 and k = 3. -/
theorem C5_subsequent_break_bounds_witness :
    (2 ≤ 3 ∧ 3 ≤ need_breaks) ∧
    ((vehicleBreaks 10080 0)[3 - 1]? = some (subsequentBreak 10080 (3 - 1)) ∧
      subsequentBreak 10080 (3 - 1) =
        { startSpec := StartSpec.inRange ((((3 : Nat) : Int) - 2) * 1260) (10080 - 600),
          duration := 600, performedSpec := PerformedSpec.optionalFree }) :=
  ⟨⟨by decide, by decide⟩, C5_subsequent_break_bounds 10080 0 3 (by decide) (by decide)⟩

/-- C6 counterexample: for the record (origin 1, destination 2, window
[0, 100]) the time-window loop produces exactly one SetRange, on the pickup
node 1 with the raw bounds; the widened window the claim demands on the
delivery node 2 (shown for travel time 700, giving [1300, 2000]) is absent,
as is any other bound on node 2. -/
theorem C6_delivery_window_counterexample :
    timeWindowOps [demandEx] = [{ node := 1, lo := 0, hi := 100 }] ∧
    ({ node := 2, lo := 0 + 700 + 700 / 660 * 600,
       hi := 100 + 700 + 700 / 660 * 600 + 600 } : RangeConstraint) ∉
      timeWindowOps [demandEx] := by decide

/-- C6 amended: each record contributes exactly one Time-dimension range
constraint, on its pickup node with the raw bounds [early, late]; a delivery
node that is not also some record's pickup node receives no range constraint
at all. -/
theorem C6_pickup_window_only (demand : List DemandRecord) (r : DemandRecord)
    (hr : r ∈ demand) (hdest : ∀ q ∈ demand, q.origin ≠ r.destination) :
    ({ node := r.origin, lo := r.early, hi := r.late } : RangeConstraint) ∈
      timeWindowOps demand ∧
    ∀ c ∈ timeWindowOps demand, c.node ≠ r.destination := by
  constructor
  · exact List.mem_map_of_mem _ hr
  · intro c hc
    obtain ⟨q, hq, rfl⟩ := List.mem_map.mp hc
    exact hdest q hq

/-- C6 witness: instantiation at the single-record table [demandEx]. -/
theorem C6_pickup_window_only_witness :
    (demandEx ∈ [demandEx] ∧ ∀ q ∈ [demandEx], q.origin ≠ demandEx.destination) ∧
    (({ node := demandEx.origin, lo := demandEx.early, hi := demandEx.late } :
        RangeConstraint) ∈ timeWindowOps [demandEx] ∧
      ∀ c ∈ timeWindowOps [demandEx], c.node ≠ demandEx.destination) :=
  ⟨⟨by decide, by decide⟩,
    C6_pickup_window_only [demandEx] demandEx (by decide) (by decide)⟩

/-- C7 counterexample: a record whose feasibility flag is false still
receives all three pairing constraints from the loop. -/
theorem C7_infeasible_not_excluded :
    infeasibleEx.feasible = false ∧
    PairOp.pickupDelivery 3 4 ∈ pairingOps [infeasibleEx] ∧
    PairOp.sameVehicle 3 4 ∈ pairingOps [infeasibleEx] ∧
    PairOp.precedence 3 4 ∈ pairingOps [infeasibleEx] := by decide

/-- C7 amended: the pairing loop adds the pickup-and-delivery, same-vehicle
and precedence constraints for every record of the demand table, regardless
of the feasibility flag. -/
theorem C7_pairing_for_every_record (demand : List DemandRecord)
    (r : DemandRecord) (hr : r ∈ demand) :
    PairOp.pickupDelivery r.origin r.destination ∈ pairingOps demand ∧
    PairOp.sameVehicle r.origin r.destination ∈ pairingOps demand ∧
    PairOp.precedence r.origin r.destination ∈ pairingOps demand := by
  refine ⟨?_, ?_, ?_⟩ <;>
    exact List.mem_flatMap.mpr ⟨r, hr, by simp⟩

/-- C7 witness: instantiation at the single-record table [infeasibleEx],
whose record is marked infeasible. -/
theorem C7_pairing_for_every_record_witness :
    infeasibleEx ∈ [infeasibleEx] ∧
    (PairOp.pickupDelivery infeasibleEx.origin infeasibleEx.destination ∈
        pairingOps [infeasibleEx] ∧
      PairOp.sameVehicle infeasibleEx.origin infeasibleEx.destination ∈
        pairingOps [infeasibleEx] ∧
      PairOp.precedence infeasibleEx.origin infeasibleEx.destination ∈
        pairingOps [infeasibleEx]) :=
  ⟨by decide, C7_pairing_for_every_record [infeasibleEx] infeasibleEx (by decide)⟩

/-- C8: every non-depot node of the index receives a single-node
disjunction, with penalty 10000000 when its demand quantity is nonzero and
break_penalty = 0 when it is zero, and no disjunction ever involves the
depot node 0 (the depot index, supplied by vehicles.py outside src, is node
0 per the shared-depot design of the spec). -/
theorem C8_disjunction_policy (nodeIndex : List Nat) (getDemand : Nat → Int)
    (c : Nat) (hc : c ∈ nodeIndex) (h0 : c ≠ 0) :
    ({ nodes := [c], p := if getDemand c = 0 then break_penalty else penalty } :
        DisjunctionOp) ∈ disjunctionOps nodeIndex getDemand ∧
    penalty = 10000000 ∧ break_penalty = 0 ∧
    ∀ dj ∈ disjunctionOps nodeIndex getDemand, dj.nodes.length = 1 ∧ 0 ∉ dj.nodes := by
  refine ⟨?_, rfl, rfl, ?_⟩
  · exact List.mem_filterMap.mpr ⟨c, hc, by rw [if_neg h0]⟩
  · intro dj hdj
    obtain ⟨x, hx, hsome⟩ := List.mem_filterMap.mp hdj
    by_cases hx0 : x = 0
    · rw [if_pos hx0] at hsome
      exact absurd hsome (by simp)
    · rw [if_neg hx0] at hsome
      obtain rfl := Option.some.inj hsome
      refine ⟨rfl, ?_⟩
      intro hmem
      exact hx0 (List.mem_singleton.mp hmem).symm

/-- C8 witness: nodes [0, 1, 2] with demand 5 at node 1 and zero demand
elsewhere; node 1 gets the demand penalty. -/
theorem C8_disjunction_policy_witness :
    (1 ∈ [0, 1, 2] ∧ (1 : Nat) ≠ 0) ∧
    (({ nodes := [1], p := if demandOfEx 1 = 0 then break_penalty else penalty } :
        DisjunctionOp) ∈ disjunctionOps [0, 1, 2] demandOfEx ∧
      penalty = 10000000 ∧ break_penalty = 0 ∧
      ∀ dj ∈ disjunctionOps [0, 1, 2] demandOfEx,
        dj.nodes.length = 1 ∧ 0 ∉ dj.nodes) :=
  ⟨⟨by decide, by decide⟩,
    C8_disjunction_policy [0, 1, 2] demandOfEx 1 (by decide) (by decide)⟩

/-- C9 counterexample: with a matrix whose entry from node 1 to node 2 is
undefined, the model built by main() contains no removeTransition operation
for that pair on any vehicle: the undefined entry is never excluded from a
next-node domain. -/
theorem C9_no_pruning_counterexample :
    matrixEx 1 2 = none ∧
    ModelOp.removeTransition 1 2 0 ∉
      buildModel 10080 1 [0, 1, 2] [demandEx] (fun _ => 0) (fun _ => 15)
        (fun _ => (0, 10080)) [1] matrixEx := by decide

/-- C9 amended: for every input, including matrices with undefined entries,
main() never emits a removeTransition operation: the model builder performs
no next-node-domain pruning; undefined entries are visible only to the
registered arc-cost callbacks. -/
theorem C9_no_transition_pruning (horizon : Int) (numVehicles : Nat)
    (nodes : List Nat) (demand : List DemandRecord) (getDemand : Nat → Int)
    (serviceTime : Nat → Int) (vehTW : Nat → Int × Int) (caps : List Int)
    (matrix : Nat → Nat → Option Int) :
    (buildModel horizon numVehicles nodes demand getDemand serviceTime vehTW
        caps matrix).all (fun op => ! op.isRemoveTransition) = true := by
  rw [List.all_eq_true]
  intro op hop
  simp only [buildModel, List.mem_append] at hop
  rcases hop with ((((h | h) | h) | h) | h) | h
  · simp only [List.mem_cons, List.not_mem_nil, or_false] at h
    rcases h with rfl | rfl | rfl | rfl <;> rfl
  · obtain ⟨x, _, rfl⟩ := List.mem_map.mp h
    rfl
  · obtain ⟨rc, _, hm⟩ := List.mem_flatMap.mp h
    simp only [List.mem_cons, List.not_mem_nil, or_false] at hm
    rcases hm with rfl | rfl <;> rfl
  · obtain ⟨i, _, hm⟩ := List.mem_flatMap.mp h
    simp only [List.mem_cons, List.not_mem_nil, or_false] at hm
    rcases hm with rfl | rfl <;> rfl
  · obtain ⟨i, _, hm⟩ := List.mem_flatMap.mp h
    simp only [List.mem_append] at hm
    rcases hm with (hm | hm) | hm
    · obtain ⟨x, _, rfl⟩ := List.mem_map.mp hm
      rfl
    · obtain ⟨x, _, rfl⟩ := List.mem_map.mp hm
      rfl
    · simp only [List.mem_singleton] at hm
      subst hm
      rfl
  · obtain ⟨x, _, rfl⟩ := List.mem_map.mp h
    rfl

/-- C10: for every vehicle other than vehicle 0, the always-performed
11-minute trip_start interval synced to route_start exists, the first break
carries the StartsAfterEnd(trip_start) constraint, and under that
constraint a performed first break cannot start earlier than
route_start + 11. -/
theorem C10_initial_drive (i : Nat) (h : i ≠ 0) :
    vehicleAuxIntervals i = [trip_start] ∧
    trip_start.duration = 11 ∧
    trip_start.startSpec = StartSpec.atOffset 0 ∧
    trip_start.performedSpec = PerformedSpec.mandatory ∧
    BreakConstraint.firstAfterTripStart ∈ vehicleBreakConstraints i ∧
    ∀ s : BreakState, s.tripStartTime = s.routeStart →
      BreakConstraint.sat s BreakConstraint.firstAfterTripStart →
      s.performed 0 = true → s.routeStart + 11 ≤ s.start 0 := by
  refine ⟨by simp [vehicleAuxIntervals, h], rfl, rfl, rfl, ?_, ?_⟩
  · unfold vehicleBreakConstraints
    rw [if_neg h]
    exact List.mem_append.mpr (Or.inl (List.mem_singleton.mpr rfl))
  · intro s hsync hsat hperf
    have he := hsat hperf
    simp only [trip_start] at he
    rw [hsync] at he
    linarith

/-- C10 witness: instantiation at vehicle 1. -/
theorem C10_initial_drive_witness :
    ((1 : Nat) ≠ 0) ∧
    (vehicleAuxIntervals 1 = [trip_start] ∧
      trip_start.duration = 11 ∧
      trip_start.startSpec = StartSpec.atOffset 0 ∧
      trip_start.performedSpec = PerformedSpec.mandatory ∧
      BreakConstraint.firstAfterTripStart ∈ vehicleBreakConstraints 1 ∧
      ∀ s : BreakState, s.tripStartTime = s.routeStart →
        BreakConstraint.sat s BreakConstraint.firstAfterTripStart →
        s.performed 0 = true → s.routeStart + 11 ≤ s.start 0) :=
  ⟨by decide, C10_initial_drive 1 (by decide)⟩

end RunSolver
